import Mathlib

/-!
Shallow embedding of the Kapacitor Python UDF agent
(`udf/agent/py/kapacitor/udf/agent.py`) and of the moving-average example
handler (`udf/agent/examples/moving_avg/moving_avg.py`), together with
proofs about the varint codec, the read/dispatch loop and the handler.
-/

namespace KapacitorUDF

/-! ### Varint codec constants (agent.py lines 163-167) -/

def mask32uint : Nat := (1 <<< 32) - 1

def byteSize : Nat := 8

def shiftSize : Nat := byteSize - 1

def varintMoreMask : Nat := 2 ^ shiftSize

def varintMask : Nat := varintMoreMask - 1

/-! ### Varint codec (agent.py, `encodeUvarint` lines 171-178 and
`decodeUvarint32` lines 181-195).  The byte stream is modelled as a
`List Nat`; `encodeUvarint` returns the bytes written, `decodeUvarint32`
returns the decoded value together with the unconsumed rest of the input.
Python's `raise EOF` / `raise Exception(...)` become the two error cases. -/

inductive VarintError where
  | eof
  | malformed
  deriving DecidableEq, Repr

/-- The `while value:` loop body of `encodeUvarint`: `bits` is the pending
7-bit group, `value` the not-yet-encoded high part. -/
def encodeUvarintLoop (bits value : Nat) : List Nat :=
  if value = 0 then
    [bits]
  else
    (varintMoreMask ||| bits) :: encodeUvarintLoop (value &&& varintMask) (value >>> shiftSize)
termination_by value
decreasing_by
  rw [Nat.shiftRight_eq_div_pow]
  exact Nat.div_lt_self (Nat.pos_of_ne_zero (by assumption)) (by decide)

def encodeUvarint (value : Nat) : List Nat :=
  encodeUvarintLoop (value &&& varintMask) (value >>> shiftSize)

/-- The `while True:` loop of `decodeUvarint32`, with accumulator `result`
and current `shift`.  An empty source models `reader.read(1)` returning
zero bytes (the Python code raises `EOF` there); the malformed case models
`raise Exception("too many bytes ...")`, reached when the shift for the
next byte would be `≥ 32`. -/
def decodeUvarint32Go : List Nat → Nat → Nat → Except VarintError (Nat × List Nat)
  | [], _, _ => .error .eof
  | b :: rest, result, shift =>
    let acc := result ||| ((b &&& varintMask) <<< shift)
    if b &&& varintMoreMask = 0 then
      .ok (acc &&& mask32uint, rest)
    else
      if shift + shiftSize ≥ 32 then .error .malformed
      else decodeUvarint32Go rest acc (shift + shiftSize)

def decodeUvarint32 (input : List Nat) : Except VarintError (Nat × List Nat) :=
  decodeUvarint32Go input 0 0

/-- Number of continuation bytes `encodeUvarintLoop` will still emit for a
given high part `value` (0 when `value = 0`). -/
def encLen (value : Nat) : Nat :=
  if value = 0 then 0 else encLen (value >>> shiftSize) + 1
termination_by value
decreasing_by
  rw [Nat.shiftRight_eq_div_pow]
  exact Nat.div_lt_self (Nat.pos_of_ne_zero (by assumption)) (by decide)

/-! ### Messages (the `udf_pb2` oneofs, treated as opaque payloads).

A `Request` mirrors the oneof of the protobuf `Request` message: the eight
variants dispatched by `Agent._read_loop` (agent.py lines 122-144) plus
`empty` for a parsed message with no oneof field set (in which case
`WhichOneof` returns `None` and the loop takes the `else` branch, line
145).  Sub-message payloads are opaque and modelled as `Nat`. -/

inductive Request where
  | info
  | init (d : Nat)
  | keepalive (time : Int)
  | snapshot
  | restore (d : Nat)
  | beginReq (d : Nat)
  | point (d : Nat)
  | endReq (d : Nat)
  | empty
  deriving DecidableEq, Repr

/-- A `Response` mirrors the oneof of the protobuf `Response` message.  The
loop itself only ever constructs the `keepalive` (line 130-131) and `error`
(line 153-154) variants; the others are returned or emitted by handlers and
carry opaque payloads. -/
inductive Response where
  | info (d : Nat)
  | init (d : Nat)
  | keepalive (time : Int)
  | snapshot (d : Nat)
  | restore (d : Nat)
  | beginResp (d : Nat)
  | point (d : Nat)
  | endResp (d : Nat)
  | error (msg : String)
  deriving DecidableEq, Repr

def Response.isError : Response → Bool
  | .error _ => true
  | _ => false

/-! ### Handler contract (agent.py `Handler`, lines 46-60).

A handler method receives the handler state, may mutate it, may emit
responses through `Agent.write_response` while running, and either returns
normally or raises.  This is modelled as a function
`σ → σ × List Response × Except String _`: final state, the responses
emitted during the call (in order), and the outcome — `.ok` with the
returned value (a `Response` for info/init/snapshot/restore, `Unit` for the
batch/point methods, whose return value the loop ignores), or `.error`
with the exception text. -/

structure Handler (σ : Type) where
  info : σ → σ × List Response × Except String Response
  init : Nat → σ → σ × List Response × Except String Response
  snapshot : σ → σ × List Response × Except String Response
  restore : Nat → σ → σ × List Response × Except String Response
  begin_batch : Nat → σ → σ × List Response × Except String Unit
  point : Nat → σ → σ × List Response × Except String Unit
  end_batch : Nat → σ → σ × List Response × Except String Unit

/-! ### The read/dispatch loop (agent.py `Agent._read_loop`, lines 111-156). -/

/-- Exception text of the generic `except` branch (line 151):
`"error processing request of type %s: %s" % (msg, e)`. -/
def agentErrorText (msg e : String) : String :=
  "error processing request of type " ++ msg ++ ": " ++ e

/-- Exception text raised by `decodeUvarint32` at line 195. -/
def varintErrorText : String :=
  "too many bytes when decoding varint, larger than 32bit uint"

/-- Outcome of the `elif` dispatch chain (lines 122-146) on one parsed
request: responses written, log lines produced, new handler state, and
whether an exception escaped the dispatch (which the surrounding
`try`/`except` turns into an Error response followed by `break`).  The
error-branch writes already include the Error response built at lines
151-155. -/
def dispatch (h : Handler σ) (hs : σ) : Request → List Response × List String × σ × Bool
  | .info =>
    match h.info hs with
    | (s, em, .ok r) => (em ++ [r], [], s, false)
    | (s, em, .error e) =>
      (em ++ [.error (agentErrorText "info" e)], [agentErrorText "info" e], s, true)
  | .init d =>
    match h.init d hs with
    | (s, em, .ok r) => (em ++ [r], [], s, false)
    | (s, em, .error e) =>
      (em ++ [.error (agentErrorText "init" e)], [agentErrorText "init" e], s, true)
  | .keepalive t => ([Response.keepalive t], [], hs, false)
  | .snapshot =>
    match h.snapshot hs with
    | (s, em, .ok r) => (em ++ [r], [], s, false)
    | (s, em, .error e) =>
      (em ++ [.error (agentErrorText "snapshot" e)], [agentErrorText "snapshot" e], s, true)
  | .restore d =>
    match h.restore d hs with
    | (s, em, .ok r) => (em ++ [r], [], s, false)
    | (s, em, .error e) =>
      (em ++ [.error (agentErrorText "restore" e)], [agentErrorText "restore" e], s, true)
  | .beginReq d =>
    match h.begin_batch d hs with
    | (s, em, .ok _) => (em, [], s, false)
    | (s, em, .error e) =>
      (em ++ [.error (agentErrorText "begin" e)], [agentErrorText "begin" e], s, true)
  | .point d =>
    match h.point d hs with
    | (s, em, .ok _) => (em, [], s, false)
    | (s, em, .error e) =>
      (em ++ [.error (agentErrorText "point" e)], [agentErrorText "point" e], s, true)
  | .endReq d =>
    match h.end_batch d hs with
    | (s, em, .ok _) => (em, [], s, false)
    | (s, em, .error e) =>
      (em ++ [.error (agentErrorText "end" e)], [agentErrorText "end" e], s, true)
  | .empty => ([], ["received unhandled request None"], hs, false)

inductive LoopNext where
  | cont (rest : List Nat)
  | brk (graceful : Bool)
  deriving DecidableEq, Repr

structure StepOut (σ : Type) where
  writes : List Response
  logs : List String
  state : σ
  next : LoopNext
  deriving DecidableEq, Repr

/-- One iteration of the `while True:` loop (lines 113-156).  `parse`
models `request.ParseFromString` (an opaque external decoder; `.error`
carries the exception text it raises on rejection).  Python's
`self._in.read(size)` on a buffered stream returns `min(size, available)`
bytes without error, hence `rest.take size` with no length check. -/
def readLoopStep (parse : List Nat → Except String Request) (h : Handler σ) (hs : σ)
    (input : List Nat) : StepOut σ :=
  match decodeUvarint32 input with
  | .error .eof => ⟨[], [], hs, .brk true⟩
  | .error .malformed =>
    ⟨[.error (agentErrorText "unknown" varintErrorText)],
      [agentErrorText "unknown" varintErrorText], hs, .brk false⟩
  | .ok (size, rest) =>
    match parse (rest.take size) with
    | .error e =>
      ⟨[.error (agentErrorText "unknown" e)], [agentErrorText "unknown" e], hs, .brk false⟩
    | .ok req =>
      match dispatch h hs req with
      | (w, l, s, false) => ⟨w, l, s, .cont (rest.drop size)⟩
      | (w, l, s, true) => ⟨w, l, s, .brk false⟩

structure LoopOut (σ : Type) where
  writes : List Response
  logs : List String
  state : σ
  graceful : Bool
  deriving DecidableEq, Repr

/-- The full `while True:` loop, iterating `readLoopStep` until a break.
Fuel-indexed for structural recursion; every iteration that continues
consumes at least the one length-prefix byte of its frame, so
`input.length + 1` fuel (used by `readLoop`) always suffices and the
zero-fuel branch is unreachable. -/
def readLoopGo (parse : List Nat → Except String Request) (h : Handler σ) :
    Nat → σ → List Nat → LoopOut σ
  | 0, hs, _ => ⟨[], [], hs, true⟩
  | fuel + 1, hs, input =>
    match readLoopStep parse h hs input with
    | ⟨w, l, s, .cont rest⟩ =>
      let o := readLoopGo parse h fuel s rest
      ⟨w ++ o.writes, l ++ o.logs, o.state, o.graceful⟩
    | ⟨w, l, s, .brk g⟩ => ⟨w, l, s, g⟩

def readLoop (parse : List Nat → Except String Request) (h : Handler σ) (hs : σ)
    (input : List Nat) : LoopOut σ :=
  readLoopGo parse h (input.length + 1) hs input

/-! ### The moving-average example handler
(`udf/agent/examples/moving_avg/moving_avg.py`).

Numeric values are Python floats; they are modelled as rationals.  All the
concrete computations proved below (small integer sums, products and the
divisions 3/2, 6/3, 10/4, 15/5) are exact in IEEE double precision, so the
rational model agrees with the float one on them. -/

/-- `AvgHandler.state` (moving_avg.py lines 19-23): `size` (an int),
`_window` (a float list), `_avg` (a float). -/
structure AvgState where
  size : Int
  window : List Rat
  avg : Rat
  deriving DecidableEq, Repr

/-- The snapshot dict built at lines 41-46 and consumed at lines 48-51,
carried through `json.dumps`/`json.loads` (which round-trips ints, finite
floats, lists and string keys exactly, so the JSON codec is modelled as
the identity on this structured value). -/
structure AvgSnapshot where
  size : Int
  window : List Rat
  avg : Rat
  deriving DecidableEq, Repr

/-- `state.update` (lines 25-37).  Returns the new state and the returned
average.  In the full-window branch with `size = 0` the Python code would
raise `ZeroDivisionError`; the rational model totalises `x / 0 = 0`
instead (that branch is unreachable for the states the claims use). -/
def AvgState.update (s : AvgState) (value : Rat) : AvgState × Rat :=
  let l : Rat := s.window.length
  if l = (s.size : Rat) then
    let avg := s.avg + value / l - s.window.headD 0 / l
    (⟨s.size, s.window.tail ++ [value], avg⟩, avg)
  else
    let avg := (value + l * s.avg) / (l + 1)
    (⟨s.size, s.window ++ [value], avg⟩, avg)

/-- `state.snapshot` (lines 41-46). -/
def AvgState.snapshot (s : AvgState) : AvgSnapshot :=
  ⟨s.size, s.window, s.avg⟩

/-- `state.restore` (lines 48-51): `int(data['size'])`,
`[float(d) for d in data['window']]`, `float(data['avg'])`; the coercions
are the identity on values produced by `state.snapshot`. -/
def AvgState.restore (data : AvgSnapshot) : AvgState :=
  ⟨data.size, data.window.map (fun d => d), data.avg⟩

/-- `AvgHandler` fields set in `__init__` (lines 53-58): `_field`,
`_size`, `_as`, and the per-group state dict `_state` (an association
list keyed by the point's group string). -/
structure AvgHandler where
  field : Option String
  size : Int
  asName : String
  state : List (String × AvgState)
  deriving DecidableEq, Repr

/-- Assignment `self._state[group] = st` into the Python dict: replace the
entry for `group` if present, else append it. -/
def setGroup : List (String × AvgState) → String → AvgState → List (String × AvgState)
  | [], g, st => [(g, st)]
  | (g₀, st₀) :: rest, g, st =>
    if g₀ = g then (g, st) :: rest else (g₀, st₀) :: setGroup rest g st

/-- The state manipulation of `AvgHandler.point` (lines 130-143): fetch or
create (`state(self._size)`, with empty window and `_avg = 0.0`) the
group's state, update it with the point's field value, store it back;  the
returned rational is the `avg` written into the response's `fieldsDouble`. -/
def AvgHandler.pointStep (h : AvgHandler) (group : String) (value : Rat) :
    AvgHandler × Rat :=
  let st :=
    match h.state.lookup group with
    | some st => st
    | none => AvgState.mk h.size [] 0
  let (st', avg) := st.update value
  (⟨h.field, h.size, h.asName, setGroup h.state group st'⟩, avg)

/-- `AvgHandler.snapshot` (lines 98-106): the per-group dict of state
snapshots that is JSON-encoded into the response. -/
def AvgHandler.snapshotData (h : AvgHandler) : List (String × AvgSnapshot) :=
  h.state.map (fun p => (p.1, p.2.snapshot))

/-- `AvgHandler.restore` (lines 108-125), success path: for each group in
the decoded data, assign `state(0)` rehydrated via `state.restore` into
the existing `_state` dict (the dict is not cleared first). -/
def AvgHandler.restoreData (h : AvgHandler) (data : List (String × AvgSnapshot)) :
    AvgHandler :=
  ⟨h.field, h.size, h.asName,
    data.foldl (fun st p => setGroup st p.1 (AvgState.restore p.2)) h.state⟩

/-- Feed a sequence of values through `state.update`, collecting the
returned averages. -/
def avgRun (s : AvgState) : List Rat → List Rat
  | [] => []
  | v :: vs =>
    let (s', a) := s.update v
    a :: avgRun s' vs

/-- Feed a sequence of (group, value) points through `AvgHandler.point`,
collecting the averages written back. -/
def runPoints (h : AvgHandler) : List (String × Rat) → List Rat
  | [] => []
  | (g, v) :: rest =>
    let (h', a) := h.pointStep g v
    a :: runPoints h' rest

/-! ### Concrete fixtures used by witnesses and counterexamples. -/

/-- A parser accepting any payload as a Keepalive request with time 7. -/
def parseKA : List Nat → Except String Request := fun _ => .ok (.keepalive 7)

/-- A parser accepting any payload as a Point request with payload 0. -/
def parsePoint : List Nat → Except String Request := fun _ => .ok (.point 0)

/-- A parser accepting any payload as an Init request with payload 0. -/
def parseInit : List Nat → Except String Request := fun _ => .ok (.init 0)

/-- A parser accepting any payload as a message with no variant set. -/
def parseEmpty : List Nat → Except String Request := fun _ => .ok .empty

/-- A parser rejecting every payload (models `ParseFromString` raising). -/
def parseFail : List Nat → Except String Request := fun _ => .error "truncated message"

/-- A handler (state `Nat`) whose methods succeed without emitting. -/
def trivHandler : Handler Nat where
  info := fun s => (s, [], .ok (.info 0))
  init := fun _ s => (s, [], .ok (.init 0))
  snapshot := fun s => (s, [], .ok (.snapshot 0))
  restore := fun _ s => (s, [], .ok (.restore 0))
  begin_batch := fun _ s => (s, [], .ok ())
  point := fun _ s => (s + 1, [], .ok ())
  end_batch := fun _ s => (s, [], .ok ())

/-- A handler whose `point` method raises after emitting nothing. -/
def raisingHandler : Handler Nat where
  info := fun s => (s, [], .ok (.info 0))
  init := fun _ s => (s, [], .ok (.init 0))
  snapshot := fun s => (s, [], .ok (.snapshot 0))
  restore := fun _ s => (s, [], .ok (.restore 0))
  begin_batch := fun _ s => (s, [], .error "not supported")
  point := fun _ s => (s + 1, [], .error "boom")
  end_batch := fun _ s => (s, [], .error "not supported")

/-- A sample handler state with two groups, used as the C9 witness. -/
def sampleAvgHandler : AvgHandler :=
  ⟨some "value", 5, "avg", [("a", ⟨5, [1, 2], 3/2⟩), ("b", ⟨5, [], 0⟩)]⟩

/-! ## Theorems -/

deriving instance DecidableEq for Except

theorem varintMask_eq : varintMask = 127 := rfl

theorem varintMoreMask_eq : varintMoreMask = 128 := rfl

theorem shiftSize_eq : shiftSize = 7 := rfl

theorem mask32uint_eq : mask32uint = 2 ^ 32 - 1 := rfl

/-! ### Bit-arithmetic helpers for the varint codec -/

theorem and_mask_lt (b : Nat) : b &&& varintMask < 128 :=
  Nat.lt_succ_of_le (varintMask_eq ▸ Nat.and_le_right)

theorem and_mask_of_lt {bits : Nat} (hb : bits < 128) : bits &&& varintMask = bits := by
  rw [varintMask_eq]
  have h7 : (127 : Nat) = 2 ^ 7 - 1 := by norm_num
  rw [h7]
  exact Nat.and_pow_two_sub_one_of_lt_two_pow (by norm_num at hb ⊢; omega)

theorem and_more_of_lt {bits : Nat} (hb : bits < 128) : bits &&& varintMoreMask = 0 := by
  rw [varintMoreMask_eq]
  have h7 : (128 : Nat) = 2 ^ 7 := by norm_num
  rw [h7, Nat.and_two_pow, Nat.testBit_lt_two_pow (h7 ▸ hb)]
  simp

theorem cont_byte_and_mask {bits : Nat} (hb : bits < 128) :
    (varintMoreMask ||| bits) &&& varintMask = bits := by
  rw [Nat.and_distrib_right, and_mask_of_lt hb]
  have : varintMoreMask &&& varintMask = 0 := by decide
  rw [this, Nat.zero_or]

theorem cont_byte_and_more {bits : Nat} (hb : bits < 128) :
    (varintMoreMask ||| bits) &&& varintMoreMask = varintMoreMask := by
  rw [Nat.and_distrib_right, and_more_of_lt hb, Nat.and_self, Nat.or_zero]

theorem or_shift_eq {bits : Nat} (hb : bits < 128) (value shift : Nat) :
    (bits <<< shift) ||| (value <<< (shift + 7)) = (bits + 128 * value) <<< shift := by
  rw [Nat.shiftLeft_eq, Nat.shiftLeft_eq, Nat.shiftLeft_eq]
  have hlt : bits * 2 ^ shift < 2 ^ (shift + 7) := by
    calc bits * 2 ^ shift < 128 * 2 ^ shift :=
          Nat.mul_lt_mul_of_pos_right hb (Nat.two_pow_pos shift)
      _ = 2 ^ (shift + 7) := by rw [Nat.pow_add]; ring
  have h := Nat.mul_add_lt_is_or hlt value
  calc bits * 2 ^ shift ||| value * 2 ^ (shift + 7)
      = 2 ^ (shift + 7) * value ||| bits * 2 ^ shift := by rw [Nat.or_comm]; ring_nf
    _ = 2 ^ (shift + 7) * value + bits * 2 ^ shift := h.symm
    _ = (bits + 128 * value) * 2 ^ shift := by rw [Nat.pow_add]; ring

theorem mod_add_div_128 (v : Nat) : (v &&& varintMask) + 128 * (v >>> shiftSize) = v := by
  rw [varintMask_eq, shiftSize_eq]
  have h7 : (127 : Nat) = 2 ^ 7 - 1 := by norm_num
  rw [h7, Nat.and_pow_two_sub_one_eq_mod, Nat.shiftRight_eq_div_pow]
  have : (128 : Nat) = 2 ^ 7 := by norm_num
  rw [this]
  exact Nat.mod_add_div v (2 ^ 7)

theorem encLen_le : ∀ k value : Nat, value < 2 ^ (7 * k) → encLen value ≤ k := by
  intro k
  induction k with
  | zero =>
    intro value h
    have : value = 0 := by simpa using h
    subst this
    rw [encLen]
    simp
  | succ k ih =>
    intro value h
    by_cases hv : value = 0
    · subst hv; rw [encLen]; simp
    · rw [encLen]
      simp only [hv, if_false]
      have hdiv : value >>> shiftSize < 2 ^ (7 * k) := by
        rw [shiftSize_eq, Nat.shiftRight_eq_div_pow]
        rw [Nat.div_lt_iff_lt_mul (Nat.two_pow_pos 7)]
        calc value < 2 ^ (7 * (k + 1)) := h
          _ = 2 ^ (7 * k) * 2 ^ 7 := by rw [← Nat.pow_add]; ring_nf
      exact Nat.succ_le_succ (ih _ hdiv)

theorem decodeGo_encodeLoop (value : Nat) :
    ∀ bits shift result rest, bits < 128 →
      shift + 7 * encLen value < 32 →
      decodeUvarint32Go (encodeUvarintLoop bits value ++ rest) result shift
        = .ok ((result ||| ((bits + 128 * value) <<< shift)) &&& mask32uint, rest) := by
  induction value using Nat.strong_induction_on with
  | _ value ih =>
    intro bits shift result rest hb hs
    have hss : shiftSize = 7 := shiftSize_eq
    by_cases hv : value = 0
    · subst hv
      rw [encodeUvarintLoop]
      simp only [if_pos rfl, List.cons_append, List.nil_append]
      simp only [decodeUvarint32Go, and_mask_of_lt hb, and_more_of_lt hb, if_pos rfl]
      simp
    · rw [encodeUvarintLoop]
      simp only [hv, if_false, List.cons_append]
      simp only [decodeUvarint32Go, cont_byte_and_mask hb, cont_byte_and_more hb]
      have hmne : ¬ varintMoreMask = 0 := by decide
      have henc : encLen value = encLen (value >>> shiftSize) + 1 := by
        rw [encLen]; simp [hv]
      rw [henc] at hs
      have hlt32 : ¬ shift + shiftSize ≥ 32 := by omega
      simp only [hmne, if_false, hlt32]
      have hrec := ih (value >>> shiftSize)
        (by rw [hss, Nat.shiftRight_eq_div_pow]
            exact Nat.div_lt_self (Nat.pos_of_ne_zero hv) (by norm_num))
        (value &&& varintMask) (shift + shiftSize) (result ||| (bits <<< shift)) rest
        (and_mask_lt value)
        (by omega)
      rw [hrec, mod_add_div_128 value, hss, Nat.or_assoc, or_shift_eq hb]

/-- C1: for every `v < 2^32`, decoding the bytes produced by
`encodeUvarint v` with `decodeUvarint32` returns `v` and consumes the
whole encoding. -/
theorem uvarint_roundtrip (v : Nat) (hv : v < 2 ^ 32) :
    decodeUvarint32 (encodeUvarint v) = .ok (v, []) := by
  have hbound : 0 + 7 * encLen (v >>> shiftSize) < 32 := by
    have h1 : v >>> shiftSize < 2 ^ (7 * 4) := by
      rw [shiftSize_eq, Nat.shiftRight_eq_div_pow,
        Nat.div_lt_iff_lt_mul (Nat.two_pow_pos 7)]
      calc v < 2 ^ 32 := hv
        _ ≤ 2 ^ (7 * 4) * 2 ^ 7 := by norm_num
    have := encLen_le 4 _ h1
    omega
  rw [decodeUvarint32, encodeUvarint,
    ← List.append_nil (encodeUvarintLoop (v &&& varintMask) (v >>> shiftSize)),
    decodeGo_encodeLoop (v >>> shiftSize) (v &&& varintMask) 0 0 [] (and_mask_lt v) hbound,
    mod_add_div_128 v, Nat.shiftLeft_zero, Nat.zero_or, mask32uint_eq,
    Nat.and_pow_two_sub_one_of_lt_two_pow hv]

theorem uvarint_roundtrip_witness :
    decodeUvarint32 (encodeUvarint 300) = .ok (300, []) :=
  uvarint_roundtrip 300 (by norm_num)

/-- C2 counterexample: the byte source `[128,128,128,128,16]` is the
encoding of `2^32` — a value not representable in 32 bits — yet
`decodeUvarint32` does not fail: it returns the masked value `0`. -/
theorem uvarint_overflow_counterexample :
    encodeUvarint (2 ^ 32) = [128, 128, 128, 128, 16]
    ∧ decodeUvarint32 [128, 128, 128, 128, 16] = .ok (0, []) := by
  constructor
  · simp [encodeUvarint, encodeUvarintLoop, varintMask_eq, varintMoreMask_eq, shiftSize_eq]
    decide
  · decide

/-- C2 (amended): `decodeUvarint32` fails (with the Python
`Exception("too many bytes ...")`, modelled as `.malformed`) exactly in
the case where five bytes are consumed and the fifth still carries the
continuation bit; a terminating encoding of a value `≥ 2^32` is instead
masked to its low 32 bits and returned. -/
theorem uvarint_too_long (b₁ b₂ b₃ b₄ b₅ : Nat) (rest : List Nat)
    (h₁ : b₁ &&& varintMoreMask ≠ 0) (h₂ : b₂ &&& varintMoreMask ≠ 0)
    (h₃ : b₃ &&& varintMoreMask ≠ 0) (h₄ : b₄ &&& varintMoreMask ≠ 0)
    (h₅ : b₅ &&& varintMoreMask ≠ 0) :
    decodeUvarint32 (b₁ :: b₂ :: b₃ :: b₄ :: b₅ :: rest) = .error .malformed := by
  simp [decodeUvarint32, decodeUvarint32Go, if_neg h₁, if_neg h₂, if_neg h₃,
    if_neg h₄, if_neg h₅, shiftSize_eq]

theorem uvarint_too_long_witness :
    decodeUvarint32 [128, 128, 128, 128, 128] = .error .malformed :=
  uvarint_too_long 128 128 128 128 128 []
    (by decide) (by decide) (by decide) (by decide) (by decide)

/-- C6: a frame that parses to a Keepalive request is answered directly by
the loop with a Keepalive response echoing the request's time field; the
conclusion holds for every handler and leaves the handler state untouched,
so no handler method is involved. -/
theorem keepalive_echo (parse : List Nat → Except String Request) {σ : Type}
    (h : Handler σ) (hs : σ) (input : List Nat) (size : Nat) (rest : List Nat) (t : Int)
    (hdec : decodeUvarint32 input = .ok (size, rest))
    (hparse : parse (rest.take size) = .ok (.keepalive t)) :
    readLoopStep parse h hs input =
      ⟨[Response.keepalive t], [], hs, .cont (rest.drop size)⟩ := by
  simp only [readLoopStep, hdec, hparse, dispatch]

theorem keepalive_echo_witness :
    readLoopStep parseKA trivHandler 0 [0] = ⟨[Response.keepalive 7], [], 0, .cont []⟩ :=
  keepalive_echo parseKA trivHandler 0 [0] 0 [] 7 rfl rfl

/-- C10: a successfully decoded message with no dispatched variant set
(`WhichOneof` returns `None`) makes the loop log an error, write no
response, and continue with the next frame without stopping. -/
theorem unhandled_request_continue (parse : List Nat → Except String Request) {σ : Type}
    (h : Handler σ) (hs : σ) (input : List Nat) (size : Nat) (rest : List Nat)
    (hdec : decodeUvarint32 input = .ok (size, rest))
    (hparse : parse (rest.take size) = .ok .empty) :
    readLoopStep parse h hs input =
      ⟨[], ["received unhandled request None"], hs, .cont (rest.drop size)⟩ := by
  simp only [readLoopStep, hdec, hparse, dispatch]

theorem unhandled_request_continue_witness :
    readLoopStep parseEmpty trivHandler 0 [0] =
      ⟨[], ["received unhandled request None"], 0, .cont []⟩ :=
  unhandled_request_continue parseEmpty trivHandler 0 [0] 0 [] rfl rfl

/-- C7: request → response mapping for every successfully dispatched
request.  Info/Init/Snapshot/Restore frames make the loop write the value
returned by the corresponding handler method (after any responses the
handler emitted while running); BeginBatch/Point/EndBatch frames invoke the
corresponding method and the loop itself writes nothing beyond the
handler's own emits.  In every case the loop continues with the next
frame. -/
theorem dispatch_response_mapping (parse : List Nat → Except String Request) {σ : Type}
    (h : Handler σ) (hs : σ) (input : List Nat) (size : Nat) (rest : List Nat)
    (hdec : decodeUvarint32 input = .ok (size, rest)) :
    (∀ s em r, parse (rest.take size) = .ok .info → h.info hs = (s, em, .ok r) →
      readLoopStep parse h hs input = ⟨em ++ [r], [], s, .cont (rest.drop size)⟩)
    ∧ (∀ d s em r, parse (rest.take size) = .ok (.init d) → h.init d hs = (s, em, .ok r) →
      readLoopStep parse h hs input = ⟨em ++ [r], [], s, .cont (rest.drop size)⟩)
    ∧ (∀ s em r, parse (rest.take size) = .ok .snapshot → h.snapshot hs = (s, em, .ok r) →
      readLoopStep parse h hs input = ⟨em ++ [r], [], s, .cont (rest.drop size)⟩)
    ∧ (∀ d s em r, parse (rest.take size) = .ok (.restore d) → h.restore d hs = (s, em, .ok r) →
      readLoopStep parse h hs input = ⟨em ++ [r], [], s, .cont (rest.drop size)⟩)
    ∧ (∀ d s em u, parse (rest.take size) = .ok (.beginReq d) → h.begin_batch d hs = (s, em, .ok u) →
      readLoopStep parse h hs input = ⟨em, [], s, .cont (rest.drop size)⟩)
    ∧ (∀ d s em u, parse (rest.take size) = .ok (.point d) → h.point d hs = (s, em, .ok u) →
      readLoopStep parse h hs input = ⟨em, [], s, .cont (rest.drop size)⟩)
    ∧ (∀ d s em u, parse (rest.take size) = .ok (.endReq d) → h.end_batch d hs = (s, em, .ok u) →
      readLoopStep parse h hs input = ⟨em, [], s, .cont (rest.drop size)⟩) := by
  refine ⟨?_, ?_, ?_, ?_, ?_, ?_, ?_⟩
  · intro s em r hp hm
    simp only [readLoopStep, hdec, hp, dispatch, hm]
  · intro d s em r hp hm
    simp only [readLoopStep, hdec, hp, dispatch, hm]
  · intro s em r hp hm
    simp only [readLoopStep, hdec, hp, dispatch, hm]
  · intro d s em r hp hm
    simp only [readLoopStep, hdec, hp, dispatch, hm]
  · intro d s em u hp hm
    simp only [readLoopStep, hdec, hp, dispatch, hm]
  · intro d s em u hp hm
    simp only [readLoopStep, hdec, hp, dispatch, hm]
  · intro d s em u hp hm
    simp only [readLoopStep, hdec, hp, dispatch, hm]

theorem dispatch_response_mapping_witness :
    readLoopStep parseInit trivHandler 0 [0] =
      ⟨[] ++ [Response.init 0], [], 0, .cont []⟩ :=
  (dispatch_response_mapping parseInit trivHandler 0 [0] 0 [] rfl).2.1
    0 0 [] (Response.init 0) rfl rfl

/-- C3: if the handler method invoked for a request raises, the loop
writes the responses the handler had emitted before raising, then exactly
one Error response — whose text names the failing request kind — and
nothing after it, and exits with a non-graceful stop (no resynchronisation
or further processing).  The disjunctive hypothesis enumerates the seven
handler-invoking request kinds. -/
theorem handler_raise_stops_loop (parse : List Nat → Except String Request) {σ : Type}
    (h : Handler σ) (hs : σ) (input : List Nat) (size : Nat) (rest : List Nat)
    (req : Request) (name e : String) (s : σ) (em : List Response)
    (hdec : decodeUvarint32 input = .ok (size, rest))
    (hparse : parse (rest.take size) = .ok req)
    (hraise :
      (req = .info ∧ name = "info" ∧ h.info hs = (s, em, .error e))
      ∨ (∃ d, req = .init d ∧ name = "init" ∧ h.init d hs = (s, em, .error e))
      ∨ (req = .snapshot ∧ name = "snapshot" ∧ h.snapshot hs = (s, em, .error e))
      ∨ (∃ d, req = .restore d ∧ name = "restore" ∧ h.restore d hs = (s, em, .error e))
      ∨ (∃ d, req = .beginReq d ∧ name = "begin" ∧ h.begin_batch d hs = (s, em, .error e))
      ∨ (∃ d, req = .point d ∧ name = "point" ∧ h.point d hs = (s, em, .error e))
      ∨ (∃ d, req = .endReq d ∧ name = "end" ∧ h.end_batch d hs = (s, em, .error e))) :
    readLoop parse h hs input =
      ⟨em ++ [Response.error (agentErrorText name e)], [agentErrorText name e], s, false⟩
    ∧ ((∀ r ∈ em, r.isError = false) →
        ((readLoop parse h hs input).writes.filter Response.isError).length = 1) := by
  have hmain : readLoop parse h hs input =
      ⟨em ++ [Response.error (agentErrorText name e)], [agentErrorText name e], s, false⟩ := by
    rcases hraise with ⟨hreq, hname, hm⟩ | ⟨d, hreq, hname, hm⟩ | ⟨hreq, hname, hm⟩ |
      ⟨d, hreq, hname, hm⟩ | ⟨d, hreq, hname, hm⟩ | ⟨d, hreq, hname, hm⟩ |
      ⟨d, hreq, hname, hm⟩ <;>
      subst hreq <;> subst hname <;>
      simp only [readLoop, readLoopGo, readLoopStep, hdec, hparse, dispatch, hm]
  refine ⟨hmain, fun hem => ?_⟩
  have hfe : em.filter Response.isError = [] := by
    rw [List.filter_eq_nil_iff]
    intro a ha
    rw [hem a ha]
    simp
  rw [hmain]
  simp only [List.filter_append, hfe, List.nil_append]
  rfl

theorem handler_raise_stops_loop_witness :
    readLoop parsePoint raisingHandler 0 [0] =
      ⟨[Response.error (agentErrorText "point" "boom")], [agentErrorText "point" "boom"], 1, false⟩
    ∧ ((∀ r ∈ ([] : List Response), r.isError = false) →
        ((readLoop parsePoint raisingHandler 0 [0]).writes.filter Response.isError).length = 1) := by
  have := handler_raise_stops_loop parsePoint raisingHandler 0 [0] 0 []
    (Request.point 0) "point" "boom" 1 [] rfl rfl
    (Or.inr (Or.inr (Or.inr (Or.inr (Or.inr (Or.inl ⟨0, rfl, rfl, rfl⟩))))))
  simpa using this

/-- C4 counterexample: input `[2, 65]` declares a 2-byte payload but only
one byte follows before end-of-stream.  The frame-reading step does not
fail: `self._in.read(size)` returns the single available byte with no
length check, the short payload is handed to the parser, and (with a
parser that accepts it) the frame is processed as if complete.  No
`TruncatedFrame` error exists anywhere on this path. -/
theorem truncated_frame_counterexample :
    decodeUvarint32 [2, 65] = .ok (2, [65])
    ∧ ([65] : List Nat).length < 2
    ∧ readLoopStep parseKA trivHandler 0 [2, 65] =
        ⟨[Response.keepalive 7], [], 0, .cont []⟩ := by
  decide

/-- C4 (amended): when end-of-stream truncates the payload (fewer than
`size` bytes remain after the length prefix), the loop reads whatever
bytes remain and passes them to the message parser; there is no
truncation check.  If the parser rejects the short payload, the generic
exception handler emits one Error response naming request type `unknown`
and the loop stops non-gracefully. -/
theorem short_read_reaches_decoder (parse : List Nat → Except String Request) {σ : Type}
    (h : Handler σ) (hs : σ) (input : List Nat) (size : Nat) (rest : List Nat) (e : String)
    (hdec : decodeUvarint32 input = .ok (size, rest))
    (hshort : rest.length < size)
    (hparse : parse rest = .error e) :
    readLoopStep parse h hs input =
      ⟨[Response.error (agentErrorText "unknown" e)], [agentErrorText "unknown" e],
        hs, .brk false⟩ := by
  have ht : rest.take size = rest := List.take_of_length_le (Nat.le_of_lt hshort)
  simp only [readLoopStep, hdec, ht, hparse]

theorem short_read_reaches_decoder_witness :
    readLoopStep parseFail trivHandler 0 [2, 65] =
      ⟨[Response.error (agentErrorText "unknown" "truncated message")],
        [agentErrorText "unknown" "truncated message"], 0, .brk false⟩ :=
  short_read_reaches_decoder parseFail trivHandler 0 [2, 65] 2 [65] "truncated message"
    rfl (by decide) rfl

/-- C5 counterexample: the stream `[128]` ends after one varint
continuation byte has been consumed (a partial frame is pending), yet the
loop breaks gracefully: `decodeUvarint32` raises `EOF` from any `read(1)`
returning zero bytes, and the loop's `except EOF: break` treats every such
EOF as a clean stop. -/
theorem graceful_midvarint_counterexample :
    (128 &&& varintMoreMask ≠ 0)
    ∧ decodeUvarint32 [128] = .error .eof
    ∧ readLoopStep parseKA trivHandler 0 [128] = ⟨[], [], 0, .brk true⟩
    ∧ readLoop parseKA trivHandler 0 [128] = ⟨[], [], 0, true⟩ := by
  decide

/-- C5 (amended): the read/dispatch loop breaks gracefully (no Error
response, graceful flag set) exactly when end-of-stream occurs while
decoding the next frame's length prefix — regardless of how many varint
bytes have already been consumed. -/
theorem graceful_stop_iff_eof_in_prefix (parse : List Nat → Except String Request) {σ : Type}
    (h : Handler σ) (hs : σ) (input : List Nat) :
    (readLoopStep parse h hs input).next = LoopNext.brk true ↔
      decodeUvarint32 input = .error .eof := by
  cases hdec : decodeUvarint32 input with
  | error err =>
    cases err with
    | eof => simp [readLoopStep, hdec]
    | malformed => simp [readLoopStep, hdec]
  | ok val =>
    obtain ⟨size, rest⟩ := val
    cases hp : parse (rest.take size) with
    | error e => simp [readLoopStep, hdec, hp]
    | ok req =>
      rcases hd : dispatch h hs req with ⟨w, l, s, b⟩
      cases b with
      | false => simp [readLoopStep, hdec, hp, hd]
      | true => simp [readLoopStep, hdec, hp, hd]

/-- C8: with window size 5 the averages returned for inputs 1,2,3,4,5 are
the cumulative means 1, 3/2, 2, 5/2, 3 — the window is never overfull, so
the cumulative branch of `state.update` is taken every time; the same
values flow through `AvgHandler.point`. -/
theorem moving_avg_cumulative_prefix :
    avgRun (AvgState.mk 5 [] 0) [1, 2, 3, 4, 5] = [1, 3/2, 2, 5/2, 3]
    ∧ runPoints (AvgHandler.mk (some "value") 5 "avg" [])
        [("", 1), ("", 2), ("", 3), ("", 4), ("", 5)] = [1, 3/2, 2, 5/2, 3] := by
  constructor
  · norm_num [avgRun, AvgState.update]
  · norm_num [runPoints, AvgHandler.pointStep, AvgState.update, setGroup, List.lookup]

theorem restore_snapshot_state (s : AvgState) :
    AvgState.restore (AvgState.snapshot s) = s := by
  cases s
  simp [AvgState.restore, AvgState.snapshot]

theorem setGroup_lookup_self :
    ∀ (l : List (String × AvgState)) (g : String) (st : AvgState),
      l.lookup g = some st → setGroup l g st = l := by
  intro l
  induction l with
  | nil => intro g st h; simp [List.lookup] at h
  | cons p rest ih =>
    intro g st h
    obtain ⟨g₀, st₀⟩ := p
    by_cases hg : g₀ = g
    · subst hg
      rw [List.lookup] at h
      simp at h
      rw [setGroup]
      simp [h]
    · have hb : (g == g₀) = false := beq_eq_false_iff_ne.mpr (fun hgg => hg hgg.symm)
      rw [List.lookup] at h
      simp [hb] at h
      rw [setGroup]
      simp [hg, ih g st h]

theorem lookup_of_mem_nodup :
    ∀ (l : List (String × AvgState)), (l.map Prod.fst).Nodup →
      ∀ g st, (g, st) ∈ l → l.lookup g = some st := by
  intro l
  induction l with
  | nil => intro _ g st h; simp at h
  | cons p rest ih =>
    intro hnd g st hmem
    obtain ⟨g₀, st₀⟩ := p
    simp only [List.map_cons, List.nodup_cons] at hnd
    rw [List.lookup]
    rcases List.mem_cons.mp hmem with heq | hmem'
    · rw [Prod.mk.injEq] at heq
      obtain ⟨h1, h2⟩ := heq
      subst h1
      subst h2
      simp
    · have hne : g₀ ≠ g := by
        intro hgg
        exact hnd.1 (hgg ▸ List.mem_map.mpr ⟨(g, st), hmem', rfl⟩)
      have hb : (g == g₀) = false := beq_eq_false_iff_ne.mpr (fun hgg => hne hgg.symm)
      simp [hb]
      exact ih hnd.2 g st hmem'

theorem foldl_setGroup_self :
    ∀ (entries : List (String × AvgState)) (l : List (String × AvgState)),
      (∀ p ∈ entries, l.lookup p.1 = some p.2) →
      entries.foldl (fun st p => setGroup st p.1 p.2) l = l := by
  intro entries
  induction entries with
  | nil => intro l _; rfl
  | cons p es ih =>
    intro l hall
    rw [List.foldl_cons, setGroup_lookup_self l p.1 p.2 (hall p (List.mem_cons_self p es))]
    exact ih l (fun q hq => hall q (List.mem_cons_of_mem p hq))

theorem avg_restore_snapshot_id (h : AvgHandler)
    (hnd : (h.state.map Prod.fst).Nodup) :
    h.restoreData h.snapshotData = h := by
  obtain ⟨f, sz, an, st⟩ := h
  simp only [AvgHandler.restoreData, AvgHandler.snapshotData, List.foldl_map,
    restore_snapshot_state, AvgHandler.mk.injEq, true_and]
  exact foldl_setGroup_self st st
    (fun p hp => lookup_of_mem_nodup st hnd p.1 p.2 hp)

/-- C9: for a handler whose per-group state dict has (as every reachable
dict does) no duplicate group keys, restoring from its own snapshot is the
identity, so any further sequence of points produces outputs identical to
the run without the snapshot/restore cycle. -/
theorem snapshot_restore_identity (h : AvgHandler)
    (hnd : (h.state.map Prod.fst).Nodup) (pts : List (String × Rat)) :
    runPoints (h.restoreData h.snapshotData) pts = runPoints h pts := by
  rw [avg_restore_snapshot_id h hnd]

theorem snapshot_restore_identity_witness :
    runPoints (sampleAvgHandler.restoreData sampleAvgHandler.snapshotData)
        [("a", 3), ("c", 1)]
      = runPoints sampleAvgHandler [("a", 3), ("c", 1)] :=
  snapshot_restore_identity sampleAvgHandler (by decide) [("a", 3), ("c", 1)]

end KapacitorUDF
